import Mathlib

/-!
Verification of the storage-semantics layer of the podd backend: TTL cache,
duplicate detection, batch operations, temporal scheduling and schema
migration, all built over an append-and-search event store.  Each component
is shallowly embedded from its Python source; theorems settle the frozen
claims about the specification.
-/

/-! ## TTL cache (src/backend/src/services/locusgraph/cache.py)

The store is a list of appended events in insertion order.  The mock store's
`retrieve_context` filters by requested context ids and returns the first
`limit` matches; the free-text query is a no-op for cache lookups because
every `cache.set` payload embeds its own cache key, so every event surviving
the context filter also matches the query.  The md5 digests of
`_generate_cache_key` and `_get_cache_context` are abstracted to the hashed
text itself: they are deterministic functions of it and no claim depends on
the digest's value.  Wall-clock time is an explicit integer parameter
(seconds). -/

structure CacheEvent where
  event_kind : String
  context_id : String
  cache_key : String := ""
  value : Option String := none
  expires_at : Option Int := none
  extendsList : List String := []
deriving DecidableEq

/-- Model of `LocusGraphCache._generate_cache_key`: `"cache:<key>"`, or
`"cache:<key>:<hash of sorted params>"` with the digest abstracted to the
serialized params. -/
def genCacheKey (key : String) (key_params : Option String) : String :=
  match key_params with
  | none => "cache:" ++ key
  | some p => "cache:" ++ key ++ ":" ++ p

/-- Model of `LocusGraphCache._get_cache_context`: `"cache_entry:<hash>"`
with the digest abstracted to the cache key itself. -/
def cacheContext (cache_key : String) : String :=
  "cache_entry:" ++ cache_key

/-- Mock-store `retrieve_context` restricted to a single requested context
id: events whose `context_id` matches, in insertion order, first `limit`. -/
def retrieveByContext (st : List CacheEvent) (ctx : String) (limit : Nat) :
    List CacheEvent :=
  (st.filter (fun e => e.context_id == ctx)).take limit

/-- Model of `LocusGraphCache._mark_expired`: append a `cache.expired`
tombstone whose `extends` list names the cache entry's context. -/
def markExpired (st : List CacheEvent) (ctx : String) : List CacheEvent :=
  st ++ [{ event_kind := "cache.expired", context_id := ctx ++ ":expired",
           extendsList := [ctx] }]

/-- Model of `LocusGraphCache.get`: search the entry's context with
`limit=1`; absent on no match; on a match, tombstone and return `none` when
`now` is past `expires_at`, otherwise return the cached value.  Returns the
result together with the store (which grows exactly when a tombstone is
written). -/
def cacheGet (st : List CacheEvent) (now : Int) (key : String)
    (key_params : Option String) : Option String × List CacheEvent :=
  let ctx := cacheContext (genCacheKey key key_params)
  match retrieveByContext st ctx 1 with
  | [] => (none, st)
  | m :: _ =>
    match m.expires_at with
    | some exp =>
        if now > exp then (none, markExpired st ctx) else (m.value, st)
    | none => (m.value, st)

/-- Model of `LocusGraphCache.set`: always append a fresh `cache.set` entry
under the key's context, with `expires_at = now + ttl`; returns the context
id and the grown store. -/
def cacheSet (st : List CacheEvent) (now : Int) (key : String) (v : String)
    (ttl : Int) (key_params : Option String) : String × List CacheEvent :=
  let ck := genCacheKey key key_params
  let ctx := cacheContext ck
  (ctx, st ++ [{ event_kind := "cache.set", context_id := ctx,
                 cache_key := ck, value := some v,
                 expires_at := some (now + ttl) }])

/-- C1: `set("k", v, ttl=60)` followed immediately by `get("k")` returns
`v`; a `get("k")` after the clock has advanced past the entry's
`expires_at` returns absent, and the store then holds a tombstone event of
kind `"cache.expired"` whose `extends` list is `[ctx]` for the cache
entry's context id `ctx`. -/
theorem c1_cache_ttl_roundtrip (v : String) (t0 t1 : Int)
    (h : t0 + 60 < t1) :
    (cacheGet (cacheSet [] t0 "k" v 60 none).2 t0 "k" none).1 = some v ∧
    (cacheGet (cacheSet [] t0 "k" v 60 none).2 t1 "k" none).1 = none ∧
    ∃ e ∈ (cacheGet (cacheSet [] t0 "k" v 60 none).2 t1 "k" none).2,
      e.event_kind = "cache.expired" ∧
      e.extendsList = [(cacheSet [] t0 "k" v 60 none).1] := by
  refine ⟨?_, ?_, ?_⟩
  · simp [cacheSet, cacheGet, retrieveByContext]
  · simp [cacheSet, cacheGet, retrieveByContext, h]
  · refine ⟨{ event_kind := "cache.expired",
              context_id := cacheContext (genCacheKey "k" none) ++ ":expired",
              extendsList := [cacheContext (genCacheKey "k" none)] }, ?_, rfl, ?_⟩
    · simp [cacheSet, cacheGet, retrieveByContext, markExpired, h]
    · simp [cacheSet]

/-- Witness for C1 at `v = "val"`, `t0 = 0`, `t1 = 100`. -/
theorem c1_cache_ttl_roundtrip_witness :
    (cacheGet (cacheSet [] 0 "k" "val" 60 none).2 0 "k" none).1 = some "val" ∧
    (cacheGet (cacheSet [] 0 "k" "val" 60 none).2 100 "k" none).1 = none ∧
    ∃ e ∈ (cacheGet (cacheSet [] 0 "k" "val" 60 none).2 100 "k" none).2,
      e.event_kind = "cache.expired" ∧
      e.extendsList = [(cacheSet [] 0 "k" "val" 60 none).1] :=
  c1_cache_ttl_roundtrip "val" 0 100 (by decide)

/-! ## Temporal scheduler (src/src/services/temporal/scheduler.py)

Python `datetime` values are modeled as a proleptic-Gregorian day number
(`ord`, days since 1970-01-01, UTC) together with time-of-day fields.
`daysFromCivil`/`civilFromDays` are the standard civil-calendar conversions
(the arithmetic underlying `datetime.toordinal`/`fromordinal`); calendar
field accessors and `timedelta(days=n)` arithmetic go through them, exactly
as Python's `datetime` does.  `weekday` is Monday=0, as in Python. -/

/-- Day number of a civil date (days since 1970-01-01, valid for all
proleptic Gregorian dates). -/
def daysFromCivil (y m d : Int) : Int :=
  let y' := if m ≤ 2 then y - 1 else y
  let era := y'.ediv 400
  let yoe := y' - era * 400
  let mp := (m + 9) % 12
  let doy := (153 * mp + 2).ediv 5 + d - 1
  let doe := yoe * 365 + yoe.ediv 4 - yoe.ediv 100 + doy
  era * 146097 + doe - 719468

/-- Civil date `(year, month, day)` of a day number; inverse of
`daysFromCivil`. -/
def civilFromDays (z : Int) : Int × Int × Int :=
  let z' := z + 719468
  let era := z'.ediv 146097
  let doe := z' - era * 146097
  let yoe := (doe - doe.ediv 1460 + doe.ediv 36524 - doe.ediv 146096).ediv 365
  let y := yoe + era * 400
  let doy := doe - (365 * yoe + yoe.ediv 4 - yoe.ediv 100)
  let mp := (5 * doy + 2).ediv 153
  let d := doy - (153 * mp + 2).ediv 5 + 1
  let m := if mp < 10 then mp + 3 else mp - 9
  (if m ≤ 2 then y + 1 else y, m, d)

/-- Model of an aware UTC `datetime`: day number plus time of day. -/
structure PyDateTime where
  ord : Int
  hour : Int := 0
  minute : Int := 0
  second : Int := 0
  microsecond : Int := 0
deriving DecidableEq

def PyDateTime.year (dt : PyDateTime) : Int := (civilFromDays dt.ord).1

def PyDateTime.month (dt : PyDateTime) : Int := (civilFromDays dt.ord).2.1

def PyDateTime.day (dt : PyDateTime) : Int := (civilFromDays dt.ord).2.2

/-- Python `datetime.weekday()`: Monday = 0 (1970-01-01 was a Thursday = 3). -/
def PyDateTime.weekday (dt : PyDateTime) : Int := (dt.ord + 3) % 7

/-- Midnight of a given civil date (`replace(year=y, month=m, day=d)` with
all time fields zeroed). -/
def mkDate (y m d : Int) : PyDateTime := { ord := daysFromCivil y m d }

/-- Python `replace(hour=0, minute=0, second=0, microsecond=0)`. -/
def midnightOf (dt : PyDateTime) : PyDateTime :=
  { dt with hour := 0, minute := 0, second := 0, microsecond := 0 }

/-- Python `dt + timedelta(days=n)` (time of day unchanged). -/
def addDays (n : Int) (dt : PyDateTime) : PyDateTime :=
  { dt with ord := dt.ord + n }

/-- Model of `TemporalContext.get_time_range_for_type`, transcribed branch
by branch (unknown types fall back to the `today` window). -/
def getTimeRangeForType (temporal_type : String) (ref : PyDateTime) :
    PyDateTime × PyDateTime :=
  if temporal_type = "today" then
    let start := midnightOf ref
    (start, addDays 1 start)
  else if temporal_type = "this_week" then
    let days_since_monday := ref.weekday
    let start := addDays (-days_since_monday) (midnightOf ref)
    (start, addDays 7 start)
  else if temporal_type = "this_month" then
    let start := mkDate ref.year ref.month 1
    if ref.month = 12 then (start, mkDate (ref.year + 1) 1 1)
    else (start, mkDate ref.year (ref.month + 1) 1)
  else if temporal_type = "this_year" then
    (mkDate ref.year 1 1, mkDate (ref.year + 1) 1 1)
  else
    let start := midnightOf ref
    (start, addDays 1 start)

/-- First component of the month following `(y, m)`, per the spec's words:
first instant of the next period, December rolling over to January of the
next year. -/
def specNextMonth (y m : Int) : Int × Int :=
  if m = 12 then (y + 1, 1) else (y, m + 1)

/-- C8: the four window types return the half-open `[start, end)` windows
the spec describes: `today` is midnight of the reference day to the next
midnight; `this_week` starts on a Monday at 00:00 no more than six days
before the reference day and ends exactly seven days later on the next
Monday; `this_month` and `this_year` run from the first instant of the
period to the first instant of the next period with December and year-end
rollover.  The closed conjuncts check the spec's example
(2024-03-15T10:00Z) and the rollover dates on concrete calendars. -/
theorem c8_get_time_range_for_type :
    (∀ ref : PyDateTime,
      getTimeRangeForType "today" ref =
        ({ ord := ref.ord }, { ord := ref.ord + 1 }) ∧
      ((getTimeRangeForType "this_week" ref).1.weekday = 0 ∧
        (getTimeRangeForType "this_week" ref).1.hour = 0 ∧
        (getTimeRangeForType "this_week" ref).1.minute = 0 ∧
        (getTimeRangeForType "this_week" ref).1.second = 0 ∧
        (getTimeRangeForType "this_week" ref).1.microsecond = 0 ∧
        (getTimeRangeForType "this_week" ref).1.ord ≤ ref.ord ∧
        ref.ord < (getTimeRangeForType "this_week" ref).1.ord + 7 ∧
        (getTimeRangeForType "this_week" ref).2 =
          addDays 7 (getTimeRangeForType "this_week" ref).1 ∧
        (getTimeRangeForType "this_week" ref).2.weekday = 0) ∧
      getTimeRangeForType "this_month" ref =
        (mkDate ref.year ref.month 1,
         mkDate (specNextMonth ref.year ref.month).1
           (specNextMonth ref.year ref.month).2 1) ∧
      getTimeRangeForType "this_year" ref =
        (mkDate ref.year 1 1, mkDate (ref.year + 1) 1 1)) ∧
    getTimeRangeForType "today" { ord := daysFromCivil 2024 3 15, hour := 10 } =
      (mkDate 2024 3 15, mkDate 2024 3 16) ∧
    getTimeRangeForType "this_week" { ord := daysFromCivil 2024 3 15, hour := 10 } =
      (mkDate 2024 3 11, mkDate 2024 3 18) ∧
    getTimeRangeForType "this_month" { ord := daysFromCivil 2024 12 15, hour := 10 } =
      (mkDate 2024 12 1, mkDate 2025 1 1) ∧
    getTimeRangeForType "this_year" { ord := daysFromCivil 2024 7 4, hour := 23 } =
      (mkDate 2024 1 1, mkDate 2025 1 1) := by
  refine ⟨?_, by decide, by decide, by decide, by decide⟩
  intro ref
  refine ⟨rfl, ?_, ?_, rfl⟩
  · have hw : getTimeRangeForType "this_week" ref =
        ({ ord := ref.ord + -((ref.ord + 3) % 7) },
         { ord := ref.ord + -((ref.ord + 3) % 7) + 7 }) := rfl
    rw [hw]
    refine ⟨?_, rfl, rfl, rfl, rfl, ?_, ?_, rfl, ?_⟩ <;>
      simp only [PyDateTime.weekday] <;> omega
  · have hm : getTimeRangeForType "this_month" ref =
        (mkDate ref.year ref.month 1,
         if ref.month = 12 then mkDate (ref.year + 1) 1 1
         else mkDate ref.year (ref.month + 1) 1) := by
      show (if ref.month = 12 then _ else _) = _
      by_cases h : ref.month = 12 <;> simp [h]
    rw [hm]
    by_cases h : ref.month = 12 <;> simp [h, specNextMonth]

/-- A memory returned by the store's candidate search for due reminders:
only the `trigger_at` payload field (absent when the payload lacks one) and
an identifying title are relevant. -/
structure ReminderMemory where
  trigger_at : Option Int := none
  title : String := ""
deriving DecidableEq

/-- Model of `TemporalScheduler.get_due_reminders`, applied to an arbitrary
candidate list produced by the store's search: keep exactly the memories
whose `trigger_at` is present and `≤ now`. -/
def getDueReminders (now : Int) (memories : List ReminderMemory) :
    List ReminderMemory :=
  memories.filter (fun m =>
    match m.trigger_at with
    | some t => t ≤ now
    | none => false)

/-- C7: for every candidate set the search may return, every reminder
returned by `get_due_reminders` has `trigger_at ≤ now` — a reminder with
`trigger_at > now` is never returned, however many non-due candidates the
search produced. -/
theorem c7_due_reminders_filtered (now : Int) (memories : List ReminderMemory)
    (m : ReminderMemory) (hm : m ∈ getDueReminders now memories) :
    ∃ t, m.trigger_at = some t ∧ t ≤ now := by
  unfold getDueReminders at hm
  have := List.of_mem_filter hm
  cases h : m.trigger_at with
  | none => rw [h] at this; simp at this
  | some t =>
      rw [h] at this
      simp only [decide_eq_true_eq] at this
      exact ⟨t, rfl, by simpa using this⟩

/-- Witness for C7: with `now = 10`, candidates due at 5 and 20 plus one
with no `trigger_at`, the reminder due at 5 is returned and satisfies the
bound. -/
theorem c7_due_reminders_filtered_witness :
    ∃ t, (⟨some 5, "due"⟩ : ReminderMemory).trigger_at = some t ∧ t ≤ 10 :=
  c7_due_reminders_filtered 10
    [⟨some 5, "due"⟩, ⟨some 20, "later"⟩, ⟨none, "odd"⟩]
    ⟨some 5, "due"⟩ (by decide)

/-! ## Batch operations (src/src/services/batch/operations.py)

Each batch creator is embedded as a pure function from its input list to
the batch result dictionary plus the full trace of calls it makes against
the store.  A store call is either an append (`store_event`) or a search
(`retrieve_context`); the batch creators' per-item processing can fail at
the points where the Python code can raise — while parsing
`scheduled_at`, while storing the entity event, or (after the entity event
is stored and its id accumulated) while scheduling the reminder — and the
surrounding `except` block records the failure and continues, exactly as in
the source.  Bookkeeping appends (`BatchOperation.create/add_entity/
complete`) are modeled as succeeding.  Event payload fields not examined by
any claim (timestamps, link lists, descriptions) are elided; `new_id()` is
modeled as an index-derived identifier. -/

structure BEvent where
  kind : String
  context_id : String
  success : Option Bool := none
  is_primary : Option Bool := none
  total_items : Option Nat := none
  successful_items : Option Nat := none
  failed_items : Option Nat := none
  entity_ids : Option (List String) := none
deriving DecidableEq

/-- One call against the store: a free-text search (`retrieve_context`, as
the duplicate detector performs) or an append (`store_event`). -/
inductive StoreAction where
  | search (query : String)
  | store (e : BEvent)
deriving DecidableEq

def isSearchAction : StoreAction → Bool
  | .search _ => true
  | .store _ => false

def isKindStore (k : String) : StoreAction → Bool
  | .search _ => false
  | .store e => e.kind == k

/-- Root event appended by `BatchOperation.create` (status in_progress,
counts zero). -/
def batchRootEvent (batchCtx : String) : BEvent :=
  { kind := "batch.create", context_id := batchCtx, total_items := some 0,
    successful_items := some 0, failed_items := some 0, entity_ids := some [] }

/-- Linked item event appended by `BatchOperation.add_entity`. -/
def addEntityEvent (batchCtx entityId : String) (succ : Bool) : BEvent :=
  { kind := "batch.item_added",
    context_id := batchCtx ++ ":item:" ++ entityId, success := some succ }

/-- Rollup event appended by `BatchOperation.complete`. -/
def completeEvent (batchCtx : String) (t s f : Nat) (ids : List String) :
    BEvent :=
  { kind := "batch.completed", context_id := batchCtx ++ ":completed",
    total_items := some t, successful_items := some s,
    failed_items := some f, entity_ids := some ids }

/-- Where an appointment item's processing can raise inside the per-item
`try` block: nowhere (`ok`), in `datetime.fromisoformat` before the
appointment event is stored (`failParse`), in the appointment `store_event`
call (`failStore`), or in reminder scheduling after the appointment event
is stored and its id appended to `created_ids` (`failReminder`, which
presupposes a reminder was requested). -/
inductive AptOutcome where
  | ok
  | failParse
  | failStore
  | failReminder
deriving DecidableEq

structure AptItem where
  title : String
  wantsReminder : Bool
  outcome : AptOutcome
deriving DecidableEq

def aptCreateEvent (entityId _title : String) : BEvent :=
  { kind := "appointment.create", context_id := "appointment:" ++ entityId }

def reminderScheduledEvent (i : Nat) : BEvent :=
  { kind := "reminder.scheduled",
    context_id := "reminder_scheduled:r" ++ toString i }

/-- One iteration of `BatchAppointmentCreator.create_appointments`'s loop:
the store calls it performs and the id it appends to `created_ids` (if
any). -/
def processAptItem (batchCtx : String) (i : Nat) (it : AptItem) :
    List StoreAction × Option String :=
  let entityId := "apt" ++ toString i
  match it.outcome with
  | .failParse => ([.store (addEntityEvent batchCtx entityId false)], none)
  | .failStore => ([.store (addEntityEvent batchCtx entityId false)], none)
  | .failReminder =>
      ([.store (aptCreateEvent entityId it.title),
        .store (addEntityEvent batchCtx entityId false)], some entityId)
  | .ok =>
      ([.store (aptCreateEvent entityId it.title)] ++
        (if it.wantsReminder then [.store (reminderScheduledEvent i)] else []) ++
        [.store (addEntityEvent batchCtx entityId true)], some entityId)

structure RunAcc where
  ids : List String
  succ : Nat
  failedCount : Nat
  trace : List StoreAction
deriving DecidableEq

/-- The appointment loop over the remaining items (`i` numbers the ids). -/
def runApt (batchCtx : String) (i : Nat) : List AptItem → RunAcc
  | [] => ⟨[], 0, 0, []⟩
  | it :: rest =>
    let step := processAptItem batchCtx i it
    let acc := runApt batchCtx (i + 1) rest
    { ids := (match step.2 with | some cid => cid :: acc.ids | none => acc.ids),
      succ := (if it.outcome = .ok then 1 else 0) + acc.succ,
      failedCount := (if it.outcome = .ok then 0 else 1) + acc.failedCount,
      trace := step.1 ++ acc.trace }

structure BatchResult where
  batch_context : String
  total_items : Nat
  successful_items : Nat
  failed_items : Nat
  entity_ids : List String
  trace : List StoreAction
deriving DecidableEq

/-- Model of `BatchAppointmentCreator.create_appointments`: root event,
per-item loop, completion rollup, and the returned result dictionary. -/
def createAppointments (user : String) (items : List AptItem) : BatchResult :=
  let batchCtx := "batch_operation:" ++ user ++ ":appointment:b0"
  let acc := runApt batchCtx 0 items
  { batch_context := batchCtx, total_items := items.length,
    successful_items := acc.succ, failed_items := acc.failedCount,
    entity_ids := acc.ids,
    trace := .store (batchRootEvent batchCtx) :: acc.trace ++
      [.store (completeEvent batchCtx items.length acc.succ acc.failedCount
        acc.ids)] }

theorem runApt_spec (batchCtx : String) (i : Nat) (items : List AptItem) :
    (runApt batchCtx i items).succ =
      items.countP (fun it => it.outcome == .ok) ∧
    (runApt batchCtx i items).failedCount =
      items.countP (fun it => !(it.outcome == .ok)) ∧
    (runApt batchCtx i items).ids.length =
      items.countP (fun it =>
        it.outcome == .ok || it.outcome == .failReminder) ∧
    (runApt batchCtx i items).trace.countP isSearchAction = 0 ∧
    (runApt batchCtx i items).trace.countP
        (isKindStore "reminder.scheduled") =
      items.countP (fun it => it.outcome == .ok && it.wantsReminder) := by
  induction items generalizing i with
  | nil => simp [runApt]
  | cons it rest ih =>
      obtain ⟨h1, h2, h3, h4, h5⟩ := ih (i + 1)
      cases hout : it.outcome <;>
        cases hw : it.wantsReminder <;>
        simp [runApt, processAptItem, hout, hw, List.countP_cons, h1, h2, h3,
          h4, h5, isSearchAction, isKindStore, addEntityEvent, aptCreateEvent,
          reminderScheduledEvent] <;> omega

/-- C2 (amended): provided no item fails after its appointment event is
stored (i.e. no reminder-scheduling failure), a batch of N items with S
full successes and F failures reports `total_items = N`,
`successful_items = S`, `failed_items = F` with `S + F = N`, and
`entity_ids` of length S, both in the returned result and in the
`batch.completed` rollup event; the batch always runs to completion — the
rollup is appended for every input, regardless of per-item failures. -/
theorem c2_batch_counts (user : String) (items : List AptItem)
    (h : ∀ it ∈ items, it.outcome ≠ AptOutcome.failReminder) :
    (createAppointments user items).total_items = items.length ∧
    (createAppointments user items).successful_items =
      items.countP (fun it => it.outcome == .ok) ∧
    (createAppointments user items).failed_items =
      items.countP (fun it => !(it.outcome == .ok)) ∧
    (createAppointments user items).successful_items +
      (createAppointments user items).failed_items = items.length ∧
    (createAppointments user items).entity_ids.length =
      (createAppointments user items).successful_items ∧
    StoreAction.store (completeEvent
        (createAppointments user items).batch_context items.length
        (createAppointments user items).successful_items
        (createAppointments user items).failed_items
        (createAppointments user items).entity_ids) ∈
      (createAppointments user items).trace := by
  obtain ⟨h1, h2, h3, _, _⟩ :=
    runApt_spec ("batch_operation:" ++ user ++ ":appointment:b0") 0 items
  have hcount : items.countP (fun it =>
      it.outcome == .ok || it.outcome == .failReminder) =
      items.countP (fun it => it.outcome == .ok) := by
    apply List.countP_congr
    intro it hit
    have := h it hit
    cases hc : it.outcome <;> simp_all
  refine ⟨rfl, ?_, ?_, ?_, ?_, ?_⟩
  · simpa [createAppointments] using h1
  · simpa [createAppointments] using h2
  · simp only [createAppointments]
    rw [h1, h2]
    have hsplit : ∀ l : List AptItem, l.length =
        l.countP (fun it => it.outcome == AptOutcome.ok) +
        l.countP (fun it => !(it.outcome == AptOutcome.ok)) := by
      intro l
      induction l with
      | nil => rfl
      | cons a t ih => cases ha : a.outcome <;>
          simp [List.countP_cons, ha, ih] <;> omega
    exact (hsplit items).symm

  · simp only [createAppointments]
    rw [h3, hcount, h1]
  · simp [createAppointments]

/-- Witness for C2 at a two-item batch: one success, one parse failure. -/
theorem c2_batch_counts_witness :
    (createAppointments "u" [⟨"a", false, .ok⟩, ⟨"b", false, .failParse⟩]).total_items = 2 ∧
    (createAppointments "u" [⟨"a", false, .ok⟩, ⟨"b", false, .failParse⟩]).successful_items = 1 ∧
    (createAppointments "u" [⟨"a", false, .ok⟩, ⟨"b", false, .failParse⟩]).failed_items = 1 ∧
    (createAppointments "u" [⟨"a", false, .ok⟩, ⟨"b", false, .failParse⟩]).entity_ids.length =
      (createAppointments "u" [⟨"a", false, .ok⟩, ⟨"b", false, .failParse⟩]).successful_items := by
  obtain ⟨p1, p2, p3, _, p5, _⟩ :=
    c2_batch_counts "u" [⟨"a", false, .ok⟩, ⟨"b", false, .failParse⟩]
      (by decide)
  exact ⟨p1, by rw [p2]; rfl, by rw [p3]; rfl, p5⟩

/-- Counterexample to C2 as stated: a single item whose appointment event
is stored but whose reminder scheduling then fails is counted as a failure
(S = 0, F = 1), yet its id remains in `created_ids`, so `entity_ids` has
length 1 ≠ S. -/
theorem c2_batch_counts_counterexample :
    (createAppointments "u" [⟨"a", true, .failReminder⟩]).successful_items = 0 ∧
    (createAppointments "u" [⟨"a", true, .failReminder⟩]).failed_items = 1 ∧
    (createAppointments "u" [⟨"a", true, .failReminder⟩]).entity_ids.length = 1 := by
  refine ⟨rfl, rfl, rfl⟩

/-- Input row for `BatchEmergencyContactCreator.create_emergency_contacts`
(`is_primary` defaulting to false is applied by the caller).  The contact
creator's store calls are modeled as succeeding: C6 concerns the
primary-demotion logic, which only observes successfully stored items. -/
structure ContactItem where
  name : String
  phone : String
  is_primary : Bool
deriving DecidableEq

def contactCreateEvent (entityId : String) (isp : Bool) : BEvent :=
  { kind := "emergency_contact.create",
    context_id := "emergency_contact:" ++ entityId, is_primary := some isp }

/-- The contact loop: walks the input with the running `primary_count`,
demoting `is_primary` when `ensure_one_primary` is set and a primary was
already stored; returns created ids, final primary count and the trace. -/
def runContacts (batchCtx : String) (ens : Bool) (i pc : Nat) :
    List ContactItem → List String × Nat × List StoreAction
  | [] => ([], pc, [])
  | c :: rest =>
    let entityId := "ec" ++ toString i
    let isp := if ens && c.is_primary && decide (pc > 0) then false
               else c.is_primary
    let next := runContacts batchCtx ens (i + 1) (if isp then pc + 1 else pc)
      rest
    (entityId :: next.1,
     next.2.1,
     [.store (contactCreateEvent entityId isp),
      .store (addEntityEvent batchCtx entityId true)] ++ next.2.2)

structure ContactBatchResult where
  batch_context : String
  total_items : Nat
  successful_items : Nat
  failed_items : Nat
  entity_ids : List String
  primary_contacts : Nat
  trace : List StoreAction
deriving DecidableEq

/-- Model of `BatchEmergencyContactCreator.create_emergency_contacts`. -/
def createEmergencyContacts (user : String) (ens : Bool)
    (contacts : List ContactItem) : ContactBatchResult :=
  let batchCtx := "batch_operation:" ++ user ++ ":emergency_contact:b0"
  let r := runContacts batchCtx ens 0 0 contacts
  { batch_context := batchCtx, total_items := contacts.length,
    successful_items := contacts.length, failed_items := 0,
    entity_ids := r.1, primary_contacts := r.2.1,
    trace := .store (batchRootEvent batchCtx) :: r.2.2 ++
      [.store (completeEvent batchCtx contacts.length contacts.length 0
        r.1)] }

/-- The `is_primary` flags of the `emergency_contact.create` events of a
trace, in store order: the stored output the claim is about. -/
def storedPrimaryFlags (tr : List StoreAction) : List Bool :=
  tr.filterMap (fun a =>
    match a with
    | .store e =>
        if e.kind == "emergency_contact.create" then e.is_primary else none
    | .search _ => none)

/-- Keep the first `true` of a boolean list and clear every later entry. -/
def markFirstTrue : List Bool → List Bool
  | [] => []
  | b :: rest =>
      if b then true :: List.replicate rest.length false
      else false :: markFirstTrue rest

theorem runContacts_flags (batchCtx : String) (cs : List ContactItem) :
    ∀ i pc, storedPrimaryFlags (runContacts batchCtx true i pc cs).2.2 =
      if pc = 0 then markFirstTrue (cs.map (·.is_primary))
      else List.replicate cs.length false := by
  induction cs with
  | nil => intro i pc; cases pc <;> simp [runContacts, storedPrimaryFlags,
      markFirstTrue]
  | cons c rest ih =>
      intro i pc
      have hflags :
          storedPrimaryFlags (runContacts batchCtx true i pc (c :: rest)).2.2 =
            (if true && c.is_primary && decide (pc > 0) then false
             else c.is_primary) ::
            storedPrimaryFlags (runContacts batchCtx true (i + 1)
              (if (if true && c.is_primary && decide (pc > 0) then false
                   else c.is_primary) then pc + 1 else pc) rest).2.2 := by
        simp [runContacts, storedPrimaryFlags, contactCreateEvent,
          addEntityEvent]
      rw [hflags]
      cases hp : c.is_primary <;> cases pc <;>
        simp [hp, ih (i + 1), markFirstTrue, List.replicate_succ]

theorem markFirstTrue_length (l : List Bool) :
    (markFirstTrue l).length = l.length := by
  induction l with
  | nil => rfl
  | cons b rest ih => cases b <;> simp [markFirstTrue, ih]

theorem markFirstTrue_count (l : List Bool) (h : l.any (fun b => b)) :
    (markFirstTrue l).countP (fun b => b) = 1 := by
  induction l with
  | nil => simp at h
  | cons b rest ih =>
      cases b with
      | true =>
          have hrep : ∀ n : Nat,
              (List.replicate n false).countP (fun b => b) = 0 := by
            intro n
            induction n with
            | zero => rfl
            | succ k ihk => simp [List.replicate_succ, List.countP_cons, ihk]
          simp [markFirstTrue, List.countP_cons, hrep]
      | false =>
          simp only [List.any_cons, Bool.false_or] at h
          simp [markFirstTrue, List.countP_cons, ih h]

theorem markFirstTrue_getD (l : List Bool) :
    ∀ j, j < l.length →
      ((markFirstTrue l).getD j false = true ↔
        j = l.findIdx (fun b => b)) := by
  induction l with
  | nil => intro j hj; simp at hj
  | cons b rest ih =>
      intro j hj
      cases b with
      | true =>
          cases j with
          | zero => simp [markFirstTrue, List.findIdx_cons]
          | succ k =>
              have hrep : ∀ n m : Nat,
                  (List.replicate n false).getD m false = false := by
                intro n
                induction n with
                | zero => intro m; simp [List.replicate]
                | succ p ihp =>
                    intro m
                    cases m <;> simp [List.replicate_succ, List.getD_cons_zero,
                      List.getD_cons_succ, ihp]
              simp [markFirstTrue, List.findIdx_cons, List.getD_cons_succ,
                hrep]
      | false =>
          cases j with
          | zero => simp [markFirstTrue, List.findIdx_cons]
          | succ k =>
              simp only [List.length_cons, Nat.succ_lt_succ_iff] at hj
              have h2 := ih k hj
              simp only [markFirstTrue, Bool.false_eq_true, if_false,
                List.getD_cons_succ, List.findIdx_cons, cond_false]
              rw [h2]
              omega

theorem findIdx_map_primary (cs : List ContactItem) :
    (cs.map (·.is_primary)).findIdx (fun b => b) =
      cs.findIdx (·.is_primary) := by
  induction cs with
  | nil => rfl
  | cons c rest ih =>
      cases hp : c.is_primary <;> simp [List.findIdx_cons, hp, ih]

/-- C6: with `ensure_one_primary = true`, a contact batch whose input holds
two or more `is_primary = true` rows stores exactly one contact with
`is_primary = true`, at the position of the first primary input row; every
later row — in particular every subsequent `is_primary = true` input — is
written with `is_primary = false`. -/
theorem c6_single_primary (user : String) (cs : List ContactItem)
    (h : 2 ≤ cs.countP (·.is_primary)) :
    (storedPrimaryFlags (createEmergencyContacts user true cs).trace).length =
      cs.length ∧
    (storedPrimaryFlags
        (createEmergencyContacts user true cs).trace).countP (fun b => b) =
      1 ∧
    ∀ j, j < cs.length →
      ((storedPrimaryFlags
          (createEmergencyContacts user true cs).trace).getD j false = true ↔
        j = cs.findIdx (·.is_primary)) := by
  have htr : storedPrimaryFlags (createEmergencyContacts user true cs).trace =
      markFirstTrue (cs.map (·.is_primary)) := by
    have hrun := runContacts_flags
      ("batch_operation:" ++ user ++ ":emergency_contact:b0") cs 0 0
    simp only [if_pos rfl] at hrun
    simpa [createEmergencyContacts, storedPrimaryFlags,
      List.filterMap_append, batchRootEvent, completeEvent] using hrun
  have hany : (cs.map (·.is_primary)).any (fun b => b) := by
    rw [List.any_eq_true]
    have : 0 < cs.countP (·.is_primary) := by omega
    obtain ⟨c, hc, hcp⟩ := List.countP_pos_iff.mp this
    exact ⟨c.is_primary, List.mem_map_of_mem _ hc, hcp⟩
  refine ⟨?_, ?_, ?_⟩
  · rw [htr, markFirstTrue_length, List.length_map]
  · rw [htr, markFirstTrue_count _ hany]
  · intro j hj
    rw [htr]
    have := markFirstTrue_getD (cs.map (·.is_primary)) j
      (by simpa using hj)
    rw [this, findIdx_map_primary]

/-- Witness for C6 at a three-row batch with two primaries. -/
theorem c6_single_primary_witness :
    (storedPrimaryFlags (createEmergencyContacts "u" true
        [⟨"a", "1", true⟩, ⟨"b", "2", true⟩, ⟨"c", "3", false⟩]).trace).length
      = 3 ∧
    (storedPrimaryFlags (createEmergencyContacts "u" true
        [⟨"a", "1", true⟩, ⟨"b", "2", true⟩,
         ⟨"c", "3", false⟩]).trace).countP (fun b => b) = 1 ∧
    ∀ j, j < 3 →
      ((storedPrimaryFlags (createEmergencyContacts "u" true
          [⟨"a", "1", true⟩, ⟨"b", "2", true⟩,
           ⟨"c", "3", false⟩]).trace).getD j false = true ↔
        j = List.findIdx (·.is_primary)
          [(⟨"a", "1", true⟩ : ContactItem), ⟨"b", "2", true⟩,
           ⟨"c", "3", false⟩]) :=
  c6_single_primary "u"
    [⟨"a", "1", true⟩, ⟨"b", "2", true⟩, ⟨"c", "3", false⟩] (by decide)

/-- Input row for `BatchMeditationSessionCreator.create_sessions`: `ok`
records whether its `store_event` call succeeds. -/
structure MedItem where
  title : String
  ok : Bool
deriving DecidableEq

def medCreateEvent (entityId : String) : BEvent :=
  { kind := "meditation_session.create",
    context_id := "meditation_session:" ++ entityId }

/-- The meditation-session loop (no reminders, `user_id = "system"`). -/
def runMed (batchCtx : String) (i : Nat) : List MedItem → RunAcc
  | [] => ⟨[], 0, 0, []⟩
  | it :: rest =>
    let entityId := "med" ++ toString i
    let acc := runMed batchCtx (i + 1) rest
    if it.ok then
      { ids := entityId :: acc.ids, succ := 1 + acc.succ,
        failedCount := acc.failedCount,
        trace := [.store (medCreateEvent entityId),
          .store (addEntityEvent batchCtx entityId true)] ++ acc.trace }
    else
      { ids := acc.ids, succ := acc.succ,
        failedCount := 1 + acc.failedCount,
        trace := [.store (addEntityEvent batchCtx entityId false)] ++
          acc.trace }

/-- Model of `BatchMeditationSessionCreator.create_sessions`. -/
def createMeditationSessions (sessions : List MedItem) : BatchResult :=
  let batchCtx := "batch_operation:system:meditation_session:b0"
  let acc := runMed batchCtx 0 sessions
  { batch_context := batchCtx, total_items := sessions.length,
    successful_items := acc.succ, failed_items := acc.failedCount,
    entity_ids := acc.ids,
    trace := .store (batchRootEvent batchCtx) :: acc.trace ++
      [.store (completeEvent batchCtx sessions.length acc.succ
        acc.failedCount acc.ids)] }

theorem runContacts_no_search (batchCtx : String) (ens : Bool)
    (cs : List ContactItem) : ∀ i pc,
    (runContacts batchCtx ens i pc cs).2.2.countP isSearchAction = 0 := by
  induction cs with
  | nil => intro i pc; rfl
  | cons c rest ih =>
      intro i pc
      simp [runContacts, List.countP_cons, isSearchAction, ih (i + 1)]

theorem runMed_no_search (batchCtx : String) (ms : List MedItem) : ∀ i,
    (runMed batchCtx i ms).trace.countP isSearchAction = 0 := by
  induction ms with
  | nil => intro i; rfl
  | cons it rest ih =>
      intro i
      cases h : it.ok <;>
        simp [runMed, h, List.countP_cons, isSearchAction, ih (i + 1)]

/-- C4 (amended): none of the three domain batch creators ever invokes the
Duplicate Detector — their store-call traces contain no search at all, so
no duplicate check happens before an item is stored; each item is written
directly, the appointment creator additionally scheduling exactly one
reminder per fully successful item that requested one. -/
theorem c4_no_duplicate_detection :
    (∀ user items,
      (createAppointments user items).trace.countP isSearchAction = 0 ∧
      (createAppointments user items).trace.countP
          (isKindStore "reminder.scheduled") =
        items.countP (fun it => it.outcome == .ok && it.wantsReminder)) ∧
    (∀ user ens cs,
      (createEmergencyContacts user ens cs).trace.countP isSearchAction
        = 0) ∧
    (∀ ms, (createMeditationSessions ms).trace.countP isSearchAction = 0) := by
  refine ⟨fun user items => ?_, fun user ens cs => ?_, fun ms => ?_⟩
  · obtain ⟨_, _, _, h4, h5⟩ :=
      runApt_spec ("batch_operation:" ++ user ++ ":appointment:b0") 0 items
    constructor
    · simp [createAppointments, List.countP_cons, List.countP_append,
        isSearchAction, h4]
    · simp [createAppointments, List.countP_cons, List.countP_append,
        isSearchAction, isKindStore, batchRootEvent, completeEvent, h5]
  · simp [createEmergencyContacts, List.countP_cons, List.countP_append,
      isSearchAction, runContacts_no_search]
  · simp [createMeditationSessions, List.countP_cons, List.countP_append,
      isSearchAction, runMed_no_search]

/-- Counterexample to C4 as stated: a one-item appointment batch stores its
appointment event while its trace contains no search whatsoever — the
Duplicate Detector (whose first store call is a search) is never invoked
before the item is stored. -/
theorem c4_no_duplicate_detection_counterexample :
    (createAppointments "u" [⟨"checkup", false, .ok⟩]).trace.countP
        isSearchAction = 0 ∧
    (createAppointments "u" [⟨"checkup", false, .ok⟩]).trace.countP
        (isKindStore "appointment.create") = 1 := by
  refine ⟨rfl, rfl⟩

/-! ## Schema migration manager (src/backend/src/services/migration/schema.py)

The four payload shapes this module ever appends are modeled as an
inductive.  `migration.run` (written by `start_migration`) is the only
payload carrying `from_version`/`to_version`/`started_at`; `migration.step`
payloads carry no `migration_id` key at all; `migration.completed` and
`migration.failed` rollups carry `migration_id` and their status but no
`to_version`.  `list_migrations` is settled against an arbitrary retrieved
candidate list, subsuming every search order, query filter and limit the
store might apply.  `started_at` timestamps are modeled as naturals (ISO
strings compare in timestamp order). -/

inductive MigPayload where
  | run (migration_id from_version to_version description : String)
      (started_at : Nat)
  | step (entity_type entity_id : String) (success : Bool)
      (old_data new_data error_message : Option String)
  | completed (migration_id : String)
      (entities_migrated entities_failed : Nat) (notes : Option String)
  | failed (migration_id : String) (error_message : String)
      (entities_migrated : Nat)
deriving DecidableEq

/-- One row of `list_migrations`' output: the fields it projects out of an
event payload via `payload.get`, with `none` where the payload lacks the
key. -/
structure MigSummary where
  migration_id : String
  status : String
  from_version : Option String
  to_version : Option String
  description : Option String
  started_at : Nat
  entities_migrated : Nat
deriving DecidableEq

/-- The summary row `list_migrations` builds from one retrieved payload;
`none` when the payload has no truthy `migration_id` (step payloads carry
none at all). -/
def migSummary? : MigPayload → Option MigSummary
  | .run mid f t d s =>
      if mid = "" then none
      else some ⟨mid, "in_progress", some f, some t, some d, s, 0⟩
  | .step _ _ _ _ _ _ => none
  | .completed mid em _ _ =>
      if mid = "" then none
      else some ⟨mid, "completed", none, none, none, 0, em⟩
  | .failed mid _ em =>
      if mid = "" then none
      else some ⟨mid, "failed", none, none, none, 0, em⟩

/-- Dedup by `migration_id`, keeping the first occurrence seen. -/
def dedupByMigId : List MigSummary → List String → List MigSummary
  | [], _ => []
  | s :: rest, seen =>
      if s.migration_id ∈ seen then dedupByMigId rest seen
      else s :: dedupByMigId rest (s.migration_id :: seen)

/-- Model of `SchemaMigrationManager.list_migrations` on an arbitrary
retrieved candidate list: project summaries, dedup keeping the first
occurrence, sort by `started_at` descending.  (The `status` argument of the
Python function only tunes the free-text query, not a local filter.) -/
def listMigrations (retrieved : List MigPayload) : List MigSummary :=
  List.insertionSort (fun a b => b.started_at ≤ a.started_at)
    (dedupByMigId (retrieved.filterMap migSummary?) [])

/-- The `PHASE4_MIGRATIONS` registry lookup, `PHASE4_MIGRATIONS.get(target)`:
the registry's only key is the string `"v4.0.0"` — not `"4.0.0"`, the
function's default `target_version` — so the lookup hits exactly for the
target `"v4.0.0"`. -/
def phase4Migration (target : String) : Option String :=
  if target = "v4.0.0" then
    some "Initial Phase 4 schema - Meditation, Appointments, Emergency Contacts"
  else none

/-- `migration_id = "v" + target.replace(".", "_")`. -/
def migIdFor (target : String) : String :=
  "v" ++ String.mk (target.data.map (fun c => if c = '.' then '_' else c))

structure EnsureResult where
  status : String
  appended : List MigPayload
deriving DecidableEq

/-- Model of `ensure_schema_version`: collect `to_version` of the
status-"completed" rows of `list_migrations`; skip when the target is
among them; otherwise run the registered migration (appending a start
record and a completion rollup) or report an unknown version. -/
def ensureSchemaVersion (retrieved : List MigPayload) (target : String)
    (now : Nat) : EnsureResult :=
  let completedVersions :=
    ((listMigrations retrieved).filter
      (fun m => m.status == "completed")).map (·.to_version)
  if some target ∈ completedVersions then
    ⟨"already_at_version", []⟩
  else
    match phase4Migration target with
    | none => ⟨"unknown_version", []⟩
    | some desc =>
        ⟨"migrated",
         [.run (migIdFor target) "3.0.0" target desc now,
          .completed (migIdFor target) 0 0
            (some "Schema-only migration - no entities migrated")]⟩

theorem dedupByMigId_subset {s : MigSummary} :
    ∀ (l : List MigSummary) (seen : List String),
      s ∈ dedupByMigId l seen → s ∈ l := by
  intro l
  induction l with
  | nil => intro seen h; simp [dedupByMigId] at h
  | cons a rest ih =>
      intro seen h
      by_cases hm : a.migration_id ∈ seen
      · simp only [dedupByMigId, if_pos hm] at h
        exact List.mem_cons_of_mem _ (ih _ h)
      · simp only [dedupByMigId, if_neg hm, List.mem_cons] at h
        rcases h with h | h
        · exact h ▸ List.mem_cons_self _ _
        · exact List.mem_cons_of_mem _ (ih _ h)

theorem listMigrations_completed_no_version (retrieved : List MigPayload)
    (s : MigSummary) (hs : s ∈ listMigrations retrieved)
    (hc : s.status = "completed") : s.to_version = none := by
  have h1 : s ∈ dedupByMigId (retrieved.filterMap migSummary?) [] :=
    (List.perm_insertionSort _ _).mem_iff.mp hs
  have h2 : s ∈ retrieved.filterMap migSummary? := dedupByMigId_subset _ _ h1
  obtain ⟨p, _, hps⟩ := List.mem_filterMap.mp h2
  cases p with
  | run mid f t d st =>
      by_cases hmid : mid = "" <;> simp [migSummary?, hmid] at hps
      rw [← hps] at hc
      simp at hc
  | step a b c d e f => simp [migSummary?] at hps
  | completed mid em ef n =>
      by_cases hmid : mid = "" <;> simp [migSummary?, hmid] at hps
      rw [← hps]
  | failed mid e em =>
      by_cases hmid : mid = "" <;> simp [migSummary?, hmid] at hps
      rw [← hps] at hc
      simp at hc

/-- C5 is wrong about the code: `ensure_schema_version` can never return
`"already_at_version"` on any store contents this module writes, because
`list_migrations` keeps only the first event per migration id (the start
record, whose status is `in_progress`) and because completion rollups carry
no `to_version` — so the completed-versions set never contains the target.
Concretely: re-running with target `"v4.0.0"` (the registry's key, giving
`migration_id = "vv4_0_0"`) after that migration fully completed appends a
duplicate start/completion pair and reports `"migrated"` again; and for the
function's default target `"4.0.0"` the registry lookup misses entirely, so
the registered migration is never run and the call returns
`"unknown_version"` with no appends. -/
theorem c5_ensure_schema_version_not_idempotent :
    (∀ (retrieved : List MigPayload) (target : String) (now : Nat),
      (ensureSchemaVersion retrieved target now).status ≠
        "already_at_version") ∧
    (ensureSchemaVersion
        [.run "vv4_0_0" "3.0.0" "v4.0.0"
           "Initial Phase 4 schema - Meditation, Appointments, Emergency Contacts" 1,
         .completed "vv4_0_0" 0 0
           (some "Schema-only migration - no entities migrated")]
        "v4.0.0" 2).status = "migrated" ∧
    (ensureSchemaVersion
        [.run "vv4_0_0" "3.0.0" "v4.0.0"
           "Initial Phase 4 schema - Meditation, Appointments, Emergency Contacts" 1,
         .completed "vv4_0_0" 0 0
           (some "Schema-only migration - no entities migrated")]
        "v4.0.0" 2).appended ≠ [] ∧
    ensureSchemaVersion [] "4.0.0" 0 =
      { status := "unknown_version", appended := [] } := by
  refine ⟨?_, by decide, by decide, by decide⟩
  intro retrieved target now
  have hnot : some target ∉
      ((listMigrations retrieved).filter
        (fun m => m.status == "completed")).map
        (fun m => m.to_version) := by
    intro hmem
    obtain ⟨s, hsf, hsv⟩ := List.mem_map.mp hmem
    have hsl := List.mem_of_mem_filter hsf
    have hsc : s.status = "completed" := by
      have := List.of_mem_filter hsf
      simpa using this
    have := listMigrations_completed_no_version retrieved s hsl hsc
    rw [this] at hsv
    exact Option.noConfusion hsv
  unfold ensureSchemaVersion
  simp only [if_neg hnot]
  cases phase4Migration target <;> simp

/-! ## Duplicate detector (src/backend/src/services/validation/duplicate.py)

Python strings are modeled as lists of characters so that the
normalization (`lower()`/`strip()`), containment (`in`) and
`split()`-based word sets of the comparators stay kernel-computable.
Compared field values are strings (the payload fields the detector scores
are JSON strings); a value is Python-falsy exactly when it is empty.
`datetime.fromisoformat` is an abstract parameter `parse` giving the
parsed timestamp in minutes, `none` when parsing raises; every theorem
quantifies over it.  Scores are exact rationals — the float arithmetic
performed by the source on these values is exact. -/

abbrev PyStr := List Char

/-- Python `str.lower()`. -/
def pyLower (s : PyStr) : PyStr := s.map Char.toLower

/-- Python `str.strip()`. -/
def pyStrip (s : PyStr) : PyStr :=
  ((s.dropWhile Char.isWhitespace).reverse.dropWhile Char.isWhitespace).reverse

/-- `str(value).lower().strip()` as performed by `_calculate_similarity`. -/
def pyNorm (s : PyStr) : PyStr := pyStrip (pyLower s)

/-- Python `a in b` on strings: substring containment. -/
def pyContains (a b : PyStr) : Bool := decide (a <:+: b)

def pyWordsAux : PyStr → PyStr → List PyStr
  | [], acc => if acc = [] then [] else [acc.reverse]
  | c :: cs, acc =>
      if c.isWhitespace then
        if acc = [] then pyWordsAux cs []
        else acc.reverse :: pyWordsAux cs []
      else pyWordsAux cs (c :: acc)

/-- Python `str.split()`: maximal runs of non-whitespace characters. -/
def pyWords (s : PyStr) : List PyStr := pyWordsAux s []

/-- Model of `DuplicateDetector._text_similarity` (the word sets `words1`,
`words2` are inlined). -/
def textSimilarity (s1 s2 : PyStr) : ℚ :=
  if s1 = s2 then 1
  else if pyContains s1 s2 || pyContains s2 s1 then 4/5
  else if (pyWords s1).toFinset = ∅ ∨ (pyWords s2).toFinset = ∅ then 0
  else (((pyWords s1).toFinset ∩ (pyWords s2).toFinset).card : ℚ) /
    (((pyWords s1).toFinset ∪ (pyWords s2).toFinset).card : ℚ)

/-- Model of `DuplicateDetector._time_similarity`: `0` when either side
fails to parse (the `except` branch), else the stepped function of the
absolute difference in minutes. -/
def timeSimilarity (parse : PyStr → Option ℚ) (s1 s2 : PyStr) : ℚ :=
  match parse s1, parse s2 with
  | some t1, some t2 =>
      let d := |t1 - t2|
      if d < 5 then 1
      else if d < 15 then 9/10
      else if d < 30 then 7/10
      else if d < 60 then 1/2
      else if d < 120 then 3/10
      else if d < 1440 then 1/10
      else 0
  | _, _ => 0

/-- Field weights of `_calculate_similarity`. -/
def fieldWeight (k : String) : ℚ :=
  if k = "title" ∨ k = "name" ∨ k = "doctor_name" then 2
  else if k = "scheduled_at" ∨ k = "time" then 3
  else if k = "location" ∨ k = "phone" then 3 / 2
  else 1

/-- Per-field-class comparator dispatch of `_calculate_similarity`. -/
def fieldSimilarity (parse : PyStr → Option ℚ) (k : String)
    (s1 s2 : PyStr) : ℚ :=
  if k = "scheduled_at" ∨ k = "time" ∨ k = "created_at" then
    timeSimilarity parse s1 s2
  else if k = "phone" ∨ k = "email" then (if s1 = s2 then 1 else 0)
  else textSimilarity s1 s2

/-- A field map (`search_fields` or a candidate payload): keys with string
values; `lookup` is `dict.get`. -/
abbrev FieldMap := List (String × PyStr)

/-- The `(similarity, weight)` pairs `_calculate_similarity` accumulates:
one per field of `search_fields` whose value is truthy and whose key is
present with a truthy value in the payload. -/
def comparedPairs (parse : PyStr → Option ℚ) (search_fields payload : FieldMap) :
    List (ℚ × ℚ) :=
  search_fields.filterMap (fun kv =>
    if kv.2 = [] then none
    else
      match payload.lookup kv.1 with
      | none => none
      | some pv =>
          if pv = [] then none
          else some (fieldSimilarity parse kv.1 (pyNorm kv.2) (pyNorm pv),
            fieldWeight kv.1))

/-- Model of `DuplicateDetector._calculate_similarity`. -/
def calculateSimilarity (parse : PyStr → Option ℚ)
    (search_fields payload : FieldMap) : ℚ :=
  let pairs := comparedPairs parse search_fields payload
  let totalScore := (pairs.map (fun q => q.1 * q.2)).sum
  let totalWeight := (pairs.map Prod.snd).sum
  if totalWeight = 0 then 0 else totalScore / totalWeight

theorem textSimilarity_bounds (s1 s2 : PyStr) :
    0 ≤ textSimilarity s1 s2 ∧ textSimilarity s1 s2 ≤ 1 := by
  unfold textSimilarity
  split_ifs with h1 h2 h3
  · norm_num
  · norm_num
  · norm_num
  · push_neg at h3
    obtain ⟨h3a, h3b⟩ := h3
    have hsub : (pyWords s1).toFinset ∩ (pyWords s2).toFinset ⊆
        (pyWords s1).toFinset ∪ (pyWords s2).toFinset := by
      intro x hx
      exact Finset.mem_union_left _ (Finset.mem_of_mem_inter_left hx)
    have hcard := Finset.card_le_card hsub
    have hpos : 0 < ((pyWords s1).toFinset ∪ (pyWords s2).toFinset).card := by
      rcases Finset.nonempty_of_ne_empty h3a with ⟨x, hx⟩
      exact Finset.card_pos.mpr ⟨x, Finset.mem_union_left _ hx⟩
    constructor
    · positivity
    · rw [div_le_one (by exact_mod_cast hpos)]
      exact_mod_cast hcard

theorem timeSimilarity_bounds (parse : PyStr → Option ℚ) (s1 s2 : PyStr) :
    0 ≤ timeSimilarity parse s1 s2 ∧ timeSimilarity parse s1 s2 ≤ 1 := by
  unfold timeSimilarity
  cases parse s1 <;> cases parse s2 <;> simp <;> split_ifs <;> norm_num

theorem fieldWeight_ge_one (k : String) : 1 ≤ fieldWeight k := by
  unfold fieldWeight
  split_ifs <;> norm_num

theorem fieldSimilarity_bounds (parse : PyStr → Option ℚ) (k : String)
    (s1 s2 : PyStr) :
    0 ≤ fieldSimilarity parse k s1 s2 ∧ fieldSimilarity parse k s1 s2 ≤ 1 := by
  unfold fieldSimilarity
  split_ifs
  · exact timeSimilarity_bounds parse s1 s2
  · norm_num
  · norm_num
  · exact textSimilarity_bounds s1 s2

theorem comparedPairs_bounds (parse : PyStr → Option ℚ)
    (search_fields payload : FieldMap) :
    ∀ q ∈ comparedPairs parse search_fields payload,
      (0 ≤ q.1 ∧ q.1 ≤ 1) ∧ 1 ≤ q.2 := by
  intro q hq
  obtain ⟨kv, _, hkv⟩ := List.mem_filterMap.mp hq
  by_cases h1 : kv.2 = []
  · simp [h1] at hkv
  · cases hl : payload.lookup kv.1 with
    | none => simp [h1, hl] at hkv
    | some pv =>
        by_cases h2 : pv = []
        · simp [h1, hl, h2] at hkv
        · simp only [if_neg h1, hl, if_neg h2, Option.some.injEq] at hkv
          rw [← hkv]
          exact ⟨fieldSimilarity_bounds parse kv.1 _ _, fieldWeight_ge_one kv.1⟩

theorem pairs_sum_bounds (l : List (ℚ × ℚ))
    (h : ∀ q ∈ l, (0 ≤ q.1 ∧ q.1 ≤ 1) ∧ 1 ≤ q.2) :
    0 ≤ (l.map (fun q => q.1 * q.2)).sum ∧
    (l.map (fun q => q.1 * q.2)).sum ≤ (l.map Prod.snd).sum ∧
    0 ≤ (l.map Prod.snd).sum ∧
    (l ≠ [] → 1 ≤ (l.map Prod.snd).sum) := by
  induction l with
  | nil => simp
  | cons q rest ih =>
      obtain ⟨⟨hq1, hq2⟩, hq3⟩ := h q (List.mem_cons_self q rest)
      obtain ⟨hr1, hr2, hr3, _⟩ :=
        ih (fun p hp => h p (List.mem_cons_of_mem _ hp))
      have hq0 : (0:ℚ) ≤ q.2 := le_trans zero_le_one hq3
      have hmul : q.1 * q.2 ≤ q.2 := by nlinarith
      have hmul0 : 0 ≤ q.1 * q.2 := mul_nonneg hq1 hq0
      refine ⟨?_, ?_, ?_, fun _ => ?_⟩ <;>
        simp only [List.map_cons, List.sum_cons] <;> linarith

theorem pairs_all_one_sum (l : List (ℚ × ℚ)) (h : ∀ q ∈ l, q.1 = 1) :
    (l.map (fun q => q.1 * q.2)).sum = (l.map Prod.snd).sum := by
  induction l with
  | nil => rfl
  | cons q rest ih =>
      have h1 := h q (List.mem_cons_self q rest)
      have h2 := ih (fun p hp => h p (List.mem_cons_of_mem _ hp))
      simp [h1, h2]

/-- C3 (amended): the similarity score lies in `[0, 1]` for every query,
payload and parse behavior; and it equals exactly `1` when the payload is
identical to the query on every shared field, provided at least one shared
field has a truthy value and every shared time-class field value actually
parses (a shared `scheduled_at`/`time`/`created_at` value that
`datetime.fromisoformat` rejects scores `0`, not `1`, even though the two
sides are identical — and with no effectively shared field the score is
`0`). -/
theorem c3_similarity_range_and_identity :
    (∀ (parse : PyStr → Option ℚ) (sf payload : FieldMap),
      0 ≤ calculateSimilarity parse sf payload ∧
      calculateSimilarity parse sf payload ≤ 1) ∧
    (∀ (parse : PyStr → Option ℚ) (sf payload : FieldMap),
      (∀ k v w, (k, v) ∈ sf → payload.lookup k = some w → w = v) →
      (∃ k v, (k, v) ∈ sf ∧ v ≠ [] ∧ payload.lookup k = some v) →
      (∀ k v, (k, v) ∈ sf → v ≠ [] →
        (k = "scheduled_at" ∨ k = "time" ∨ k = "created_at") →
        payload.lookup k ≠ none → (parse (pyNorm v)).isSome) →
      calculateSimilarity parse sf payload = 1) := by
  constructor
  · intro parse sf payload
    unfold calculateSimilarity
    obtain ⟨hs1, hs2, hs3, _⟩ :=
      pairs_sum_bounds _ (comparedPairs_bounds parse sf payload)
    by_cases hw : ((comparedPairs parse sf payload).map Prod.snd).sum = 0
    · simp [hw]
    · have hpos : 0 < ((comparedPairs parse sf payload).map Prod.snd).sum :=
        lt_of_le_of_ne hs3 (Ne.symm hw)
      rw [if_neg hw]
      exact ⟨div_nonneg hs1 hs3, (div_le_one hpos).mpr hs2⟩
  · intro parse sf payload hid hmem hparse
    have hall : ∀ q ∈ comparedPairs parse sf payload, q.1 = 1 := by
      intro q hq
      obtain ⟨kv, hkvmem, hkv⟩ := List.mem_filterMap.mp hq
      by_cases h1 : kv.2 = []
      · simp [h1] at hkv
      · cases hl : payload.lookup kv.1 with
        | none => simp [if_neg h1, hl] at hkv
        | some pv =>
            by_cases h2 : pv = []
            · simp [if_neg h1, hl, h2] at hkv
            · simp only [if_neg h1, hl, if_neg h2, Option.some.injEq] at hkv
              have hpv : pv = kv.2 := hid kv.1 kv.2 pv hkvmem hl
              rw [← hkv]
              show fieldSimilarity parse kv.1 (pyNorm kv.2) (pyNorm pv) = 1
              rw [hpv]
              unfold fieldSimilarity
              by_cases ht : kv.1 = "scheduled_at" ∨ kv.1 = "time" ∨
                  kv.1 = "created_at"
              · rw [if_pos ht]
                have hsome := hparse kv.1 kv.2 hkvmem h1 ht
                  (by rw [hl]; exact Option.noConfusion)
                obtain ⟨t, hts⟩ := Option.isSome_iff_exists.mp hsome
                unfold timeSimilarity
                rw [hts]
                simp
              · rw [if_neg ht]
                by_cases hp : kv.1 = "phone" ∨ kv.1 = "email"
                · rw [if_pos hp, if_pos rfl]
                · rw [if_neg hp]
                  unfold textSimilarity
                  rw [if_pos rfl]
    have hnon : comparedPairs parse sf payload ≠ [] := by
      obtain ⟨k, v, hkv, hv, hl⟩ := hmem
      have hm : (fieldSimilarity parse k (pyNorm v) (pyNorm v),
          fieldWeight k) ∈ comparedPairs parse sf payload := by
        apply List.mem_filterMap.mpr
        exact ⟨(k, v), hkv, by simp [if_neg hv, hl]⟩
      exact List.ne_nil_of_mem hm
    obtain ⟨_, _, _, hge⟩ :=
      pairs_sum_bounds _ (comparedPairs_bounds parse sf payload)
    have hwpos : (0:ℚ) <
        ((comparedPairs parse sf payload).map Prod.snd).sum :=
      lt_of_lt_of_le zero_lt_one (hge hnon)
    unfold calculateSimilarity
    rw [if_neg (ne_of_gt hwpos), pairs_all_one_sum _ hall]
    exact div_self (ne_of_gt hwpos)

/-- Witness for C3: a one-field query scored against an identical payload
is within bounds and scores exactly `1`. -/
theorem c3_similarity_range_and_identity_witness :
    (0 ≤ calculateSimilarity (fun _ => none) [("title", ['d'])]
        [("title", ['d'])] ∧
      calculateSimilarity (fun _ => none) [("title", ['d'])]
        [("title", ['d'])] ≤ 1) ∧
    calculateSimilarity (fun _ => none) [("title", ['d'])]
      [("title", ['d'])] = 1 :=
  ⟨c3_similarity_range_and_identity.1 (fun _ => none) _ _,
   c3_similarity_range_and_identity.2 (fun _ => none)
     [("title", ['d'])] [("title", ['d'])]
     (by
       intro k v w hkv hw
       simp only [List.mem_singleton, Prod.mk.injEq] at hkv
       obtain ⟨rfl, rfl⟩ := hkv
       simp [List.lookup] at hw
       exact hw.symm)
     ⟨"title", ['d'], by simp, by simp, by simp [List.lookup]⟩
     (by
       intro k v hkv _ hcon _
       simp only [List.mem_singleton, Prod.mk.injEq] at hkv
       rcases hcon with h | h | h <;> rw [hkv.1] at h <;> simp at h)⟩

/-- Counterexample to C3 as stated: query and payload are identical on
their one shared field `time`, but the value is not a parsable timestamp,
so `_time_similarity` returns `0` from its except-branch and the overall
score is `0`, not `1`. -/
theorem c3_identity_counterexample :
    calculateSimilarity (fun _ => none) [("time", ['n', 'o', 'o', 'n'])]
      [("time", ['n', 'o', 'o', 'n'])] = 0 ∧ (0 : ℚ) ≠ 1 := by
  constructor
  · have h1 : comparedPairs (fun _ => none)
        [("time", ['n', 'o', 'o', 'n'])] [("time", ['n', 'o', 'o', 'n'])] =
        [(0, 3)] := by
      simp [comparedPairs, List.lookup, fieldSimilarity, timeSimilarity,
        fieldWeight]
    unfold calculateSimilarity
    rw [h1]
    norm_num
  · norm_num

theorem textSimilarity_symm (s1 s2 : PyStr) :
    textSimilarity s1 s2 = textSimilarity s2 s1 := by
  by_cases h1 : s1 = s2
  · rw [h1]
  · have h1' : ¬s2 = s1 := fun h => h1 h.symm
    unfold textSimilarity
    rw [if_neg h1, if_neg h1']
    by_cases h2 : (pyContains s1 s2 || pyContains s2 s1) = true
    · rw [if_pos h2, if_pos (by rwa [Bool.or_comm] at h2)]
    · have h2' : ¬(pyContains s2 s1 || pyContains s1 s2) = true := by
        rw [Bool.or_comm]; exact h2
      rw [if_neg h2, if_neg h2']
      by_cases h3 : (pyWords s1).toFinset = ∅ ∨ (pyWords s2).toFinset = ∅
      · have h3' : (pyWords s2).toFinset = ∅ ∨ (pyWords s1).toFinset = ∅ :=
          h3.symm
        rw [if_pos h3, if_pos h3']
      · have h3' : ¬((pyWords s2).toFinset = ∅ ∨
            (pyWords s1).toFinset = ∅) := fun h => h3 h.symm
        rw [if_neg h3, if_neg h3']
        rw [Finset.inter_comm, Finset.union_comm]

theorem timeSimilarity_symm (parse : PyStr → Option ℚ) (s1 s2 : PyStr) :
    timeSimilarity parse s1 s2 = timeSimilarity parse s2 s1 := by
  unfold timeSimilarity
  cases parse s1 <;> cases parse s2 <;> simp [abs_sub_comm]

theorem fieldSimilarity_symm (parse : PyStr → Option ℚ) (k : String)
    (s1 s2 : PyStr) :
    fieldSimilarity parse k s1 s2 = fieldSimilarity parse k s2 s1 := by
  unfold fieldSimilarity
  by_cases ht : k = "scheduled_at" ∨ k = "time" ∨ k = "created_at"
  · rw [if_pos ht, if_pos ht, timeSimilarity_symm]
  · rw [if_neg ht, if_neg ht]
    by_cases hp : k = "phone" ∨ k = "email"
    · rw [if_pos hp, if_pos hp]
      by_cases he : s1 = s2
      · rw [if_pos he, if_pos he.symm]
      · rw [if_neg he, if_neg (fun h => he h.symm)]
    · rw [if_neg hp, if_neg hp, textSimilarity_symm]

/-- The contribution one `search_fields` row makes against a payload `q`:
`0` when the row is skipped, else `g` of the key and the two normalized
values.  Taking `g` to be similarity-times-weight (resp. just the weight)
recovers the numerator (resp. denominator) of `_calculate_similarity`. -/
def pairTerm (g : String → PyStr → PyStr → ℚ) (q : FieldMap)
    (kv : String × PyStr) : ℚ :=
  if kv.2 = [] then 0
  else
    match q.lookup kv.1 with
    | none => 0
    | some pv => if pv = [] then 0 else g kv.1 (pyNorm kv.2) (pyNorm pv)

theorem comparedPairs_map_sum (parse : PyStr → Option ℚ) (p : FieldMap)
    (f : ℚ × ℚ → ℚ) :
    ∀ sf : FieldMap,
      ((comparedPairs parse sf p).map f).sum =
        (sf.map (pairTerm
          (fun k a b => f (fieldSimilarity parse k a b, fieldWeight k))
          p)).sum := by
  intro sf
  induction sf with
  | nil => rfl
  | cons kv rest ih =>
      by_cases h1 : kv.2 = []
      · simp only [comparedPairs, List.filterMap_cons, if_pos h1]
        simp only [comparedPairs] at ih
        simp [ih, pairTerm, h1]
      · cases hl : p.lookup kv.1 with
        | none =>
            simp only [comparedPairs, List.filterMap_cons, if_neg h1, hl]
            simp only [comparedPairs] at ih
            simp [ih, pairTerm, h1, hl]
        | some pv =>
            by_cases h2 : pv = []
            · simp only [comparedPairs, List.filterMap_cons, if_neg h1, hl,
                if_pos h2]
              simp only [comparedPairs] at ih
              simp [ih, pairTerm, h1, hl, h2]
            · simp only [comparedPairs, List.filterMap_cons, if_neg h1, hl,
                if_neg h2]
              simp only [comparedPairs] at ih
              simp [ih, pairTerm, h1, hl, h2]

theorem lookup_cons_ne {k a : String} {v : PyStr} {l : FieldMap}
    (h : a ≠ k) : List.lookup a ((k, v) :: l) = List.lookup a l := by
  simp [List.lookup, beq_eq_false_iff_ne.mpr h]

theorem pairTerm_cons_ne (g : String → PyStr → PyStr → ℚ) (k : String)
    (v : PyStr) (sf : FieldMap) (kv : String × PyStr) (h : kv.1 ≠ k) :
    pairTerm g ((k, v) :: sf) kv = pairTerm g sf kv := by
  unfold pairTerm
  rw [lookup_cons_ne h]

theorem pairTerm_nil (g : String → PyStr → PyStr → ℚ)
    (kv : String × PyStr) : pairTerm g [] kv = 0 := by
  unfold pairTerm
  by_cases h : kv.2 = [] <;> simp [h, List.lookup]

theorem lookup_none_keys {k : String} {p : FieldMap}
    (h : List.lookup k p = none) : ∀ kv ∈ p, kv.1 ≠ k := by
  induction p with
  | nil => intro kv hm; simp at hm
  | cons a rest ih =>
      obtain ⟨k0, v0⟩ := a
      intro kv hm
      by_cases hk : k = k0
      · simp [List.lookup, hk] at h
      · rcases List.mem_cons.mp hm with rfl | hm2
        · exact fun hc => hk hc.symm
        · exact ih (by rwa [lookup_cons_ne hk] at h) kv hm2

theorem lookup_some_split {k : String} {w : PyStr} {p : FieldMap}
    (h : List.lookup k p = some w) :
    ∃ p1 p2, p = p1 ++ (k, w) :: p2 ∧ ∀ kv ∈ p1, kv.1 ≠ k := by
  induction p with
  | nil => simp [List.lookup] at h
  | cons a rest ih =>
      obtain ⟨k0, v0⟩ := a
      by_cases hk : k = k0
      · refine ⟨[], rest, ?_, by simp⟩
        simp only [List.lookup, ← hk, beq_self_eq_true, Option.some.injEq]
          at h
        rw [← hk, ← h]
        rfl
      · rw [lookup_cons_ne hk] at h
        obtain ⟨p1, p2, hsplit, hp1⟩ := ih h
        refine ⟨(k0, v0) :: p1, p2, by rw [hsplit]; rfl, ?_⟩
        intro kv hm
        rcases List.mem_cons.mp hm with rfl | hm2
        · exact fun hc => hk hc.symm
        · exact hp1 kv hm2

theorem lookup_append_skip {k a : String} {w : PyStr} (p1 p2 : FieldMap)
    (h : a ≠ k) :
    List.lookup a (p1 ++ (k, w) :: p2) = List.lookup a (p1 ++ p2) := by
  induction p1 with
  | nil => simpa using lookup_cons_ne h
  | cons b rest ih =>
      obtain ⟨k0, v0⟩ := b
      by_cases hb : a = k0
      · simp [List.lookup, hb]
      · rw [List.cons_append, lookup_cons_ne hb, List.cons_append,
          lookup_cons_ne hb]
        exact ih

theorem lookup_cons_self (k : String) (v : PyStr) (l : FieldMap) :
    List.lookup k ((k, v) :: l) = some v := by
  simp [List.lookup]

theorem pairTerm_append_skip (g : String → PyStr → PyStr → ℚ) (k : String)
    (w : PyStr) (p1 p2 : FieldMap) (kv : String × PyStr) (h : kv.1 ≠ k) :
    pairTerm g (p1 ++ (k, w) :: p2) kv = pairTerm g (p1 ++ p2) kv := by
  unfold pairTerm
  rw [lookup_append_skip p1 p2 h]

theorem pairTerm_sum_symm (g : String → PyStr → PyStr → ℚ)
    (hg : ∀ k a b, g k a b = g k b a) :
    ∀ sf p : FieldMap, (sf.map Prod.fst).Nodup → (p.map Prod.fst).Nodup →
      (sf.map (pairTerm g p)).sum = (p.map (pairTerm g sf)).sum := by
  intro sf
  induction sf with
  | nil =>
      intro p _ _
      simp only [List.map_nil, List.sum_nil]
      exact (List.sum_eq_zero (fun x hx => by
        obtain ⟨kv, _, rfl⟩ := List.mem_map.mp hx
        exact pairTerm_nil g kv)).symm
  | cons kv0 sf' ih =>
      obtain ⟨k, v⟩ := kv0
      intro p hsf hp
      have hknot : k ∉ sf'.map Prod.fst := by
        simp only [List.map_cons, List.nodup_cons] at hsf
        exact hsf.1
      have hk : ∀ kv ∈ sf', kv.1 ≠ k := by
        intro kv hm hc
        exact hknot (hc ▸ List.mem_map_of_mem Prod.fst hm)
      have hsf' : (sf'.map Prod.fst).Nodup := by
        simp only [List.map_cons, List.nodup_cons] at hsf
        exact hsf.2
      rw [List.map_cons, List.sum_cons]
      cases hl : List.lookup k p with
      | none =>
          have hterm : pairTerm g p (k, v) = 0 := by
            unfold pairTerm
            by_cases h : v = []
            · simp [h]
            · simp [h, hl]
          have hpoint : p.map (pairTerm g ((k, v) :: sf')) =
              p.map (pairTerm g sf') :=
            List.map_congr_left (fun kv hm =>
              pairTerm_cons_ne g k v sf' kv (lookup_none_keys hl kv hm))
          rw [hterm, zero_add, ih p hsf' hp, hpoint]
      | some w =>
          obtain ⟨p1, p2, rfl, hp1⟩ := lookup_some_split hl
          have hpkeys : ((p1 ++ (k, w) :: p2).map Prod.fst).Nodup := hp
          have hmid : (k :: (p1.map Prod.fst ++ p2.map Prod.fst)).Nodup := by
            rw [← List.nodup_middle]
            simpa using hpkeys
          have hknotp : k ∉ p1.map Prod.fst ++ p2.map Prod.fst :=
            (List.nodup_cons.mp hmid).1
          have hp2 : ∀ kv ∈ p2, kv.1 ≠ k := by
            intro kv hm hc
            exact hknotp (List.mem_append_right _
              (hc ▸ List.mem_map_of_mem Prod.fst hm))
          have hp' : ((p1 ++ p2).map Prod.fst).Nodup := by
            rw [List.map_append]
            exact (List.nodup_cons.mp hmid).2
          have hhead : pairTerm g (p1 ++ (k, w) :: p2) (k, v) =
              pairTerm g ((k, v) :: sf') (k, w) := by
            unfold pairTerm
            simp only [hl, lookup_cons_self]
            by_cases h1 : v = [] <;> by_cases h2 : w = [] <;>
              simp [h1, h2, hg k]
          have htail : sf'.map (pairTerm g (p1 ++ (k, w) :: p2)) =
              sf'.map (pairTerm g (p1 ++ p2)) :=
            List.map_congr_left (fun kv hm =>
              pairTerm_append_skip g k w p1 p2 kv (hk kv hm))
          have hP1 : p1.map (pairTerm g ((k, v) :: sf')) =
              p1.map (pairTerm g sf') :=
            List.map_congr_left (fun kv hm =>
              pairTerm_cons_ne g k v sf' kv (hp1 kv hm))
          have hP2 : p2.map (pairTerm g ((k, v) :: sf')) =
              p2.map (pairTerm g sf') :=
            List.map_congr_left (fun kv hm =>
              pairTerm_cons_ne g k v sf' kv (hp2 kv hm))
          rw [hhead, htail, ih (p1 ++ p2) hsf' hp']
          simp only [List.map_append, List.sum_append, List.map_cons,
            List.sum_cons, hP1, hP2]
          ring

/-- C9 is wrong about the code: `_calculate_similarity` is symmetric.  A
field is scored only when present with a truthy value on *both* sides, and
every per-field comparator is symmetric in its two arguments, so swapping
query and candidate never changes the score — also when the two field sets
differ.  (Stated for maps without duplicate keys, as Python dicts are.) -/
theorem c9_similarity_symmetric (parse : PyStr → Option ℚ)
    (A B : FieldMap) (hA : (A.map Prod.fst).Nodup)
    (hB : (B.map Prod.fst).Nodup) :
    calculateSimilarity parse A B = calculateSimilarity parse B A := by
  have hscore :
      ((comparedPairs parse A B).map (fun q => q.1 * q.2)).sum =
      ((comparedPairs parse B A).map (fun q => q.1 * q.2)).sum := by
    rw [comparedPairs_map_sum parse B (fun q => q.1 * q.2) A,
      comparedPairs_map_sum parse A (fun q => q.1 * q.2) B]
    exact pairTerm_sum_symm _
      (fun k a b => by simp only [fieldSimilarity_symm parse k a b])
      A B hA hB
  have hweight :
      ((comparedPairs parse A B).map Prod.snd).sum =
      ((comparedPairs parse B A).map Prod.snd).sum := by
    rw [comparedPairs_map_sum parse B Prod.snd A,
      comparedPairs_map_sum parse A Prod.snd B]
    exact pairTerm_sum_symm
      (fun k a b => Prod.snd (fieldSimilarity parse k a b, fieldWeight k))
      (fun k a b => rfl) A B hA hB
  simp only [calculateSimilarity]
  rw [hscore, hweight]

/-- Witness for C9 (amended): scoring with field sets `{title}` versus
`{title, time}` gives the same value in both directions. -/
theorem c9_similarity_symmetric_witness :
    calculateSimilarity (fun _ => none) [("title", ['d'])]
      [("title", ['d']), ("time", ['t'])] =
    calculateSimilarity (fun _ => none) [("title", ['d']), ("time", ['t'])]
      [("title", ['d'])] :=
  c9_similarity_symmetric (fun _ => none) [("title", ['d'])]
    [("title", ['d']), ("time", ['t'])] (by decide) (by decide)

/-- Counterexample to C9 as stated, at the claim's own exemplar shapes: `A`
with fields `{title}`, `B` with fields `{title, time}` — the two scoring
directions agree (both score only the shared `title` field and give `1`),
where the claim asserts they differ. -/
theorem c9_similarity_symmetric_counterexample :
    calculateSimilarity (fun _ => none) [("title", ['d'])]
      [("title", ['d']), ("time", ['t'])] = 1 ∧
    calculateSimilarity (fun _ => none) [("title", ['d']), ("time", ['t'])]
      [("title", ['d'])] = 1 := by
  constructor
  · have h1 : comparedPairs (fun _ => none) [("title", ['d'])]
        [("title", ['d']), ("time", ['t'])] = [(1, 2)] := by
      simp [comparedPairs, List.lookup, fieldSimilarity, textSimilarity,
        fieldWeight]
    unfold calculateSimilarity
    rw [h1]
    norm_num
  · have h2 : comparedPairs (fun _ => none)
        [("title", ['d']), ("time", ['t'])] [("title", ['d'])] = [(1, 2)] := by
      simp [comparedPairs, List.lookup, fieldSimilarity, textSimilarity,
        fieldWeight]
    unfold calculateSimilarity
    rw [h2]
    norm_num

/-! ## Temporal payload enrichment (src/src/services/temporal/scheduler.py,
`TemporalContext.enrich_payload`)

C10 is a frame property about Python object mutation, so dictionaries are
modeled with an explicit heap: a dict value is either a primitive or a
reference to another dict object, the heap is the list of allocated dict
objects (addresses are indices, allocation appends), and `payload.copy()`
is a shallow copy — a fresh object holding the same entries, references
included.  `isoformat` is rendered by a concrete formatter; `strftime("%a")
.lower()` maps the weekday to `"mon".."sun"`; `is_today` compares civil
dates, which in the ordinal representation is ordinal equality. -/

inductive PVal where
  | s (v : String)
  | n (v : Int)
  | b (v : Bool)
  | ref (addr : Nat)
deriving DecidableEq

abbrev PyDict := List (String × PVal)

abbrev Heap := List PyDict

def heapGet (h : Heap) (a : Nat) : PyDict := h.getD a []

def heapSet (h : Heap) (a : Nat) (d : PyDict) : Heap := h.set a d

/-- Python `d[k] = v`: replace in place when the key exists, else append. -/
def setKey (d : PyDict) (k : String) (v : PVal) : PyDict :=
  if (d.lookup k).isSome then
    d.map (fun kv => if kv.1 = k then (k, v) else kv)
  else d ++ [(k, v)]

def pad2 (n : Int) : String :=
  (if n < 10 then "0" else "") ++ toString n

def pad4 (n : Int) : String :=
  (if n < 10 then "000" else if n < 100 then "00"
   else if n < 1000 then "0" else "") ++ toString n

/-- `datetime.isoformat()` of an aware UTC datetime (fractional seconds
omitted when the microsecond field is zero, as Python does). -/
def pyIso (dt : PyDateTime) : String :=
  pad4 dt.year ++ "-" ++ pad2 dt.month ++ "-" ++ pad2 dt.day ++ "T" ++
    pad2 dt.hour ++ ":" ++ pad2 dt.minute ++ ":" ++ pad2 dt.second ++
    (if dt.microsecond = 0 then "" else "." ++ toString dt.microsecond) ++
    "+00:00"

/-- `ts.strftime("%a").lower()`. -/
def dayOfWeekStr (dt : PyDateTime) : String :=
  ["mon", "tue", "wed", "thu", "fri", "sat", "sun"].getD
    dt.weekday.toNat "mon"

/-- The `temporal_metadata` dict `enrich_payload` builds from `ts` (and the
current time `now`, used only for `is_today`). -/
def temporalMetadataDict (temporal_type : String) (ts now : PyDateTime) :
    PyDict :=
  [("type", .s temporal_type),
   ("timestamp", .s (pyIso ts)),
   ("timezone", .s "UTC"),
   ("year", .n ts.year),
   ("month", .n ts.month),
   ("day", .n ts.day),
   ("hour", .n ts.hour),
   ("day_of_week", .s (dayOfWeekStr ts)),
   ("is_today", .b (decide (ts.ord = now.ord)))]

/-- Model of `TemporalContext.enrich_payload` on the heap: allocate the
temporal-metadata dict, shallow-copy the payload, install a fresh empty
`"metadata"` dict when the key is absent (else mutate the shared one — or
fail as Python's item assignment would on a non-dict value), then set its
`"temporal"` entry.  Returns the new heap and the address of the enriched
dict. -/
def enrichPayload (h : Heap) (pAddr : Nat) (temporal_type : String)
    (ts now : PyDateTime) : Option (Heap × Nat) :=
  let p := heapGet h pAddr
  let tmAddr := h.length
  let h1 := h ++ [temporalMetadataDict temporal_type ts now]
  match p.lookup "metadata" with
  | none =>
      let mAddr := h1.length
      let h2 := h1 ++ [([] : PyDict)]
      let enriched := setKey p "metadata" (.ref mAddr)
      let h3 := heapSet h2 mAddr
        (setKey (heapGet h2 mAddr) "temporal" (.ref tmAddr))
      some (h3 ++ [enriched], h3.length)
  | some (PVal.ref mAddr) =>
      let h3 := heapSet h1 mAddr
        (setKey (heapGet h1 mAddr) "temporal" (.ref tmAddr))
      some (h3 ++ [p], h3.length)
  | some _ => none

theorem list_getD_append_lt {α : Type} (l1 l2 : List α) (d : α) :
    ∀ a, a < l1.length → (l1 ++ l2).getD a d = l1.getD a d := by
  induction l1 with
  | nil => intro a ha; simp at ha
  | cons x rest ih =>
      intro a ha
      cases a with
      | zero => rfl
      | succ n =>
          simp only [List.length_cons, Nat.succ_lt_succ_iff] at ha
          simpa [List.getD_cons_succ] using ih n ha

theorem list_getD_append_self {α : Type} (l1 : List α) (x d : α) :
    (l1 ++ [x]).getD l1.length d = x := by
  induction l1 with
  | nil => rfl
  | cons y rest ih => simp [List.getD_cons_succ, ih]

theorem list_getD_set_ne {α : Type} (l : List α) (i : Nat) (v d : α) :
    ∀ j, i ≠ j → (l.set i v).getD j d = l.getD j d := by
  induction l generalizing i with
  | nil => intro j _; simp
  | cons x rest ih =>
      intro j hne
      cases i with
      | zero =>
          cases j with
          | zero => exact absurd rfl hne
          | succ m => simp [List.getD_cons_succ]
      | succ n =>
          cases j with
          | zero => simp
          | succ m =>
              simp only [List.set_cons_succ, List.getD_cons_succ]
              exact ih n m (fun hc => hne (by rw [hc]))

theorem list_getD_set_self {α : Type} (l : List α) (v d : α) :
    ∀ i, i < l.length → (l.set i v).getD i d = v := by
  induction l with
  | nil => intro i hi; simp at hi
  | cons x rest ih =>
      intro i hi
      cases i with
      | zero => rfl
      | succ n =>
          simp only [List.length_cons, Nat.succ_lt_succ_iff] at hi
          simpa [List.set_cons_succ, List.getD_cons_succ] using ih n hi

/-- C10: on a payload without a `"metadata"` key, `enrich_payload` leaves
the input dict (and every other pre-existing object) untouched and returns
a fresh dict holding every original top-level entry unchanged plus a
`"metadata"` entry whose `"temporal"` sub-map carries the type, the ISO
timestamp, the timezone, year/month/day/hour, the weekday name and the
`is_today` flag computed from the given timestamp. -/
theorem c10_enrich_payload_frame (h : Heap) (pAddr : Nat)
    (temporal_type : String) (ts now : PyDateTime)
    (hlt : pAddr < h.length)
    (hmeta : (heapGet h pAddr).lookup "metadata" = none) :
    ∃ h', enrichPayload h pAddr temporal_type ts now =
        some (h', h.length + 2) ∧
      (∀ a, a < h.length → heapGet h' a = heapGet h a) ∧
      heapGet h' pAddr = heapGet h pAddr ∧
      heapGet h' (h.length + 2) =
        heapGet h pAddr ++ [("metadata", PVal.ref (h.length + 1))] ∧
      heapGet h' (h.length + 1) = [("temporal", PVal.ref h.length)] ∧
      (heapGet h' h.length).lookup "type" = some (.s temporal_type) ∧
      (heapGet h' h.length).lookup "timestamp" = some (.s (pyIso ts)) ∧
      (heapGet h' h.length).lookup "timezone" = some (.s "UTC") ∧
      (heapGet h' h.length).lookup "year" = some (.n ts.year) ∧
      (heapGet h' h.length).lookup "month" = some (.n ts.month) ∧
      (heapGet h' h.length).lookup "day" = some (.n ts.day) ∧
      (heapGet h' h.length).lookup "hour" = some (.n ts.hour) ∧
      (heapGet h' h.length).lookup "day_of_week" =
        some (.s (dayOfWeekStr ts)) ∧
      (heapGet h' h.length).lookup "is_today" =
        some (.b (decide (ts.ord = now.ord))) := by
  have hget2 : heapGet ((h ++ [temporalMetadataDict temporal_type ts now])
      ++ [[]]) (h ++ [temporalMetadataDict temporal_type ts now]).length
      = [] :=
    list_getD_append_self _ _ _
  have hset2 : setKey (heapGet h pAddr) "metadata"
      (PVal.ref (h ++ [temporalMetadataDict temporal_type ts now]).length) =
      heapGet h pAddr ++ [("metadata", PVal.ref (h.length + 1))] := by
    unfold setKey
    rw [hmeta]
    simp
  have hmain : enrichPayload h pAddr temporal_type ts now =
      some ((((h ++ [temporalMetadataDict temporal_type ts now]) ++ [[]]).set
          (h.length + 1) [("temporal", PVal.ref h.length)]) ++
          [heapGet h pAddr ++ [("metadata", PVal.ref (h.length + 1))]],
        h.length + 2) := by
    simp only [enrichPayload, hmeta]
    rw [hget2, hset2]
    unfold heapSet setKey
    simp [List.lookup]
  have hH2len : ((h ++ [temporalMetadataDict temporal_type ts now]) ++
      [[]]).length = h.length + 2 := by simp
  have hH3len : (((h ++ [temporalMetadataDict temporal_type ts now]) ++
      [[]]).set (h.length + 1)
      [("temporal", PVal.ref h.length)]).length = h.length + 2 := by
    simp
  have hframe : ∀ a, a < h.length →
      heapGet ((((h ++ [temporalMetadataDict temporal_type ts now]) ++
        [[]]).set (h.length + 1) [("temporal", PVal.ref h.length)]) ++
        [heapGet h pAddr ++ [("metadata", PVal.ref (h.length + 1))]]) a =
      heapGet h a := by
    intro a ha
    unfold heapGet
    rw [list_getD_append_lt _ _ _ a (by rw [hH3len]; omega)]
    rw [list_getD_set_ne _ _ _ _ a (by omega)]
    rw [list_getD_append_lt _ _ _ a (by simp; omega)]
    rw [list_getD_append_lt _ _ _ a ha]
  have hq : heapGet ((((h ++ [temporalMetadataDict temporal_type ts now]) ++
      [[]]).set (h.length + 1) [("temporal", PVal.ref h.length)]) ++
      [heapGet h pAddr ++ [("metadata", PVal.ref (h.length + 1))]])
      (h.length + 2) =
      heapGet h pAddr ++ [("metadata", PVal.ref (h.length + 1))] := by
    unfold heapGet
    rw [← hH3len]
    exact list_getD_append_self _ _ _
  have hm : heapGet ((((h ++ [temporalMetadataDict temporal_type ts now]) ++
      [[]]).set (h.length + 1) [("temporal", PVal.ref h.length)]) ++
      [heapGet h pAddr ++ [("metadata", PVal.ref (h.length + 1))]])
      (h.length + 1) = [("temporal", PVal.ref h.length)] := by
    unfold heapGet
    rw [list_getD_append_lt _ _ _ _ (by rw [hH3len]; omega)]
    exact list_getD_set_self _ _ _ _ (by rw [hH2len]; omega)
  have htm : heapGet ((((h ++ [temporalMetadataDict temporal_type ts now]) ++
      [[]]).set (h.length + 1) [("temporal", PVal.ref h.length)]) ++
      [heapGet h pAddr ++ [("metadata", PVal.ref (h.length + 1))]])
      h.length = temporalMetadataDict temporal_type ts now := by
    unfold heapGet
    rw [list_getD_append_lt _ _ _ _ (by rw [hH3len]; omega)]
    rw [list_getD_set_ne _ _ _ _ h.length (by omega)]
    rw [list_getD_append_lt _ _ _ _ (by simp)]
    exact list_getD_append_self _ _ _
  refine ⟨_, hmain, hframe, hframe pAddr hlt, hq, hm, ?_, ?_, ?_, ?_, ?_,
    ?_, ?_, ?_, ?_⟩ <;>
    rw [htm] <;> rfl

/-- Witness for C10: a one-object heap holding `{"title": "x"}`. -/
theorem c10_enrich_payload_frame_witness :
    ∃ h', enrichPayload [[("title", PVal.s "x")]] 0 "due"
        { ord := 0, hour := 10 } { ord := 0 } = some (h', 3) ∧
      (∀ a, a < 1 →
        heapGet h' a = heapGet [[("title", PVal.s "x")]] a) ∧
      heapGet h' 0 = heapGet [[("title", PVal.s "x")]] 0 ∧
      heapGet h' 3 =
        heapGet [[("title", PVal.s "x")]] 0 ++
          [("metadata", PVal.ref 2)] ∧
      heapGet h' 2 = [("temporal", PVal.ref 1)] ∧
      (heapGet h' 1).lookup "type" = some (.s "due") ∧
      (heapGet h' 1).lookup "timestamp" =
        some (.s (pyIso { ord := 0, hour := 10 })) ∧
      (heapGet h' 1).lookup "timezone" = some (.s "UTC") ∧
      (heapGet h' 1).lookup "year" =
        some (.n (PyDateTime.year { ord := 0, hour := 10 })) ∧
      (heapGet h' 1).lookup "month" =
        some (.n (PyDateTime.month { ord := 0, hour := 10 })) ∧
      (heapGet h' 1).lookup "day" =
        some (.n (PyDateTime.day { ord := 0, hour := 10 })) ∧
      (heapGet h' 1).lookup "hour" = some (.n 10) ∧
      (heapGet h' 1).lookup "day_of_week" =
        some (.s (dayOfWeekStr { ord := 0, hour := 10 })) ∧
      (heapGet h' 1).lookup "is_today" =
        some (.b (decide ((0 : Int) = 0))) :=
  c10_enrich_payload_frame [[("title", PVal.s "x")]] 0 "due"
    { ord := 0, hour := 10 } { ord := 0 } (by decide) (by decide)
